import Mathlib

/-!
Verification of the `hashmyfiles` tool (src/main.py, src/database.py).

The development shallowly embeds the program: the filesystem is an explicit
value (directories, regular files with byte contents, SQLite store files),
each Python function becomes a Lean function over that state, and the claims
of the specification are proved as theorems about those functions.

Bytes are natural numbers below 256; 32-bit machine words are natural
numbers reduced modulo 2^32.
-/

namespace HashMyFiles

/-! ## SHA-256 (model of Python's hashlib.sha256)

`hashlib.sha256` is an external library; it is modelled here by a full
executable SHA-256 implementation over byte lists, together with the
incremental-object interface: `update` appends bytes to the absorbed
stream and `hexdigest` hashes the absorbed stream. -/

/-- Reduce to a 32-bit word. -/
def w32 (x : Nat) : Nat := x % 4294967296

/-- Rotate a 32-bit word right by `n` bits. -/
def rotr (n x : Nat) : Nat := w32 ((x >>> n) ||| (x <<< (32 - n)))

/-- The upper-case Σ0 function of the compression rounds. -/
def sigU0 (x : Nat) : Nat := rotr 2 x ^^^ rotr 13 x ^^^ rotr 22 x

/-- The upper-case Σ1 function of the compression rounds. -/
def sigU1 (x : Nat) : Nat := rotr 6 x ^^^ rotr 11 x ^^^ rotr 25 x

/-- The lower-case σ0 function of the message schedule. -/
def sigL0 (x : Nat) : Nat := rotr 7 x ^^^ rotr 18 x ^^^ (x >>> 3)

/-- The lower-case σ1 function of the message schedule. -/
def sigL1 (x : Nat) : Nat := rotr 17 x ^^^ rotr 19 x ^^^ (x >>> 10)

/-- The SHA-256 round constants, written in decimal. -/
def sha256K : List Nat :=
  [1116352408, 1899447441, 3049323471, 3921009573, 961987163,
   1508970993, 2453635748, 2870763221, 3624381080, 310598401,
   607225278, 1426881987, 1925078388, 2162078206, 2614888103,
   3248222580, 3835390401, 4022224774, 264347078, 604807628,
   770255983, 1249150122, 1555081692, 1996064986, 2554220882,
   2821834349, 2952996808, 3210313671, 3336571891, 3584528711,
   113926993, 338241895, 666307205, 773529912, 1294757372,
   1396182291, 1695183700, 1986661051, 2177026350, 2456956037,
   2730485921, 2820302411, 3259730800, 3345764771, 3516065817,
   3600352804, 4094571909, 275423344, 430227734, 506948616,
   659060556, 883997877, 958139571, 1322822218, 1537002063,
   1747873779, 1955562222, 2024104815, 2227730452, 2361852424,
   2428436474, 2756734187, 3204031479, 3329325298]

/-- The SHA-256 initial hash state, written in decimal. -/
def sha256Init : List Nat :=
  [1779033703, 3144134277, 1013904242, 2773480762, 1359893119,
   2600822924, 528734635, 1541459225]

/-- Split a byte list into consecutive blocks of `n` bytes (the last block may
be shorter).  With `n = 0` the result is empty; all uses have `n > 0`. -/
def chunksOf (n : Nat) (l : List Nat) : List (List Nat) :=
  if h : l = [] ∨ n = 0 then [] else l.take n :: chunksOf n (l.drop n)
termination_by l.length
decreasing_by
  simp only [not_or] at h
  have h1 : l ≠ [] := h.1
  have h2 : n ≠ 0 := h.2
  have : 0 < l.length := List.length_pos.mpr h1
  simp only [List.length_drop]
  omega

/-- Big-endian bytes of `x`, `k` bytes wide. -/
def toBytesBE (k : Nat) (x : Nat) : List Nat :=
  (List.range k).reverse.map (fun i => (x >>> (8 * i)) % 256)

/-- SHA-256 padding: append `0x80`, zeros up to 56 mod 64, and the 64-bit
big-endian bit length. -/
def padMessage (msg : List Nat) : List Nat :=
  let len := msg.length
  let zeros := (119 - len % 64) % 64
  msg ++ [128] ++ List.replicate zeros 0 ++ toBytesBE 8 (8 * len)

/-- Interpret four bytes as a big-endian 32-bit word. -/
def bytesToWordBE (bs : List Nat) : Nat :=
  bs.foldl (fun acc b => 256 * acc + b) 0

/-- A 64-byte block as sixteen big-endian words. -/
def toWordsBE (bs : List Nat) : List Nat :=
  (chunksOf 4 bs).map bytesToWordBE

/-- Append schedule word `i` (for `i ≥ 16`) to the message schedule. -/
def extendW (ws : List Nat) (i : Nat) : List Nat :=
  ws ++ [w32 (sigL1 (ws.getD (i - 2) 0) + ws.getD (i - 7) 0 +
              sigL0 (ws.getD (i - 15) 0) + ws.getD (i - 16) 0)]

/-- Extend sixteen words to the 64-word message schedule. -/
def messageSchedule (ws : List Nat) : List Nat :=
  (List.range 48).foldl (fun acc j => extendW acc (16 + j)) ws

/-- One round of the SHA-256 compression function; the state is the list
`[a, b, c, d, e, f, g, h]`. -/
def compressStep (st : List Nat) (wk : Nat × Nat) : List Nat :=
  let a := st.getD 0 0
  let b := st.getD 1 0
  let c := st.getD 2 0
  let d := st.getD 3 0
  let e := st.getD 4 0
  let f := st.getD 5 0
  let g := st.getD 6 0
  let hh := st.getD 7 0
  let ch := (e &&& f) ^^^ ((e ^^^ 4294967295) &&& g)
  let maj := (a &&& b) ^^^ (a &&& c) ^^^ (b &&& c)
  let t1 := w32 (hh + sigU1 e + ch + wk.2 + wk.1)
  let t2 := w32 (sigU0 a + maj)
  [w32 (t1 + t2), a, b, c, w32 (d + t1), e, f, g]

/-- Process one padded 64-byte block. -/
def processBlock (hs : List Nat) (block : List Nat) : List Nat :=
  let ws := messageSchedule (toWordsBE block)
  let st := (ws.zip sha256K).foldl compressStep hs
  (hs.zip st).map (fun p => w32 (p.1 + p.2))

/-- The eight 32-bit words of the SHA-256 digest of a byte string. -/
def sha256Words (msg : List Nat) : List Nat :=
  (chunksOf 64 (padMessage msg)).foldl processBlock sha256Init

/-- A 32-bit word as eight lowercase hex digits. -/
def wordToHex (x : Nat) : String :=
  let ds := Nat.toDigits 16 x
  String.mk (List.replicate (8 - ds.length) '0' ++ ds)

/-- The SHA-256 digest of a byte string, as a lowercase hex string: the
one-pass hash of the entire content. -/
def sha256hex (msg : List Nat) : String :=
  String.join ((sha256Words msg).map wordToHex)

/-- Model of `sha256.update`: a hashlib object absorbs the bytes fed to it;
its state is the stream absorbed so far. -/
def shaUpdate (absorbed : List Nat) (block : List Nat) : List Nat :=
  absorbed ++ block

/-- Model of `sha256.hexdigest`: hash the absorbed stream. -/
def shaHexdigest (absorbed : List Nat) : String :=
  sha256hex absorbed

/-- Block size used by the streaming read loop (`BLOCK_SIZE = 65536`). -/
def BLOCK_SIZE : Nat := 65536

/-- Streaming hash of a file content, as in `generate_sha256_hash`: the
content is read in `BLOCK_SIZE`-byte blocks, each fed to `update`, and the
final digest is taken. -/
def sha256StreamHex (content : List Nat) : String :=
  shaHexdigest ((chunksOf BLOCK_SIZE content).foldl shaUpdate [])

/-! ## Filesystem model

A filesystem holds a set of directory paths, the regular files (each with the
directory `os.walk` reports it in, its basename and its byte content), and
the SQLite database files.  A database file is modelled by its full path and
the state of its `hashes` table: `none` when the file holds no such table
(a freshly `connect`-created empty database, or a file that is not a valid
store), `some rows` when the table exists with the given rows. -/

/-- A row of the `hashes` table: `(path, hash)`. -/
abbrev Rows := List (String × String)

/-- A regular file on disk. -/
structure FSFile where
  dir : String
  name : String
  content : List Nat
deriving DecidableEq

/-- An SQLite database file on disk. -/
structure DBEntry where
  path : String
  table : Option Rows
deriving DecidableEq

/-- The filesystem state. -/
structure FS where
  dirs : List String
  files : List FSFile
  dbs : List DBEntry
deriving DecidableEq

/-- Model of `os.path.join` for the paths this program builds. -/
def osPathJoin (a b : String) : String := a ++ "/" ++ b

/-- Full path of a regular file. -/
def FSFile.path (f : FSFile) : String := osPathJoin f.dir f.name

/-- Model of `os.path.isdir`. -/
def isDir (fs : FS) (p : String) : Bool := fs.dirs.contains p

/-- True when a regular (non-database) file sits at `p`. -/
def isRegFile (fs : FS) (p : String) : Bool :=
  fs.files.any (fun f => f.path == p)

/-- Model of `os.path.isfile`. -/
def isFile (fs : FS) (p : String) : Bool :=
  isRegFile fs p || fs.dbs.any (fun e => e.path == p)

/-- Content of the regular file at `p`, if any. -/
def readFile (fs : FS) (p : String) : Option (List Nat) :=
  (fs.files.find? (fun f => f.path == p)).map FSFile.content

/-- Split a path at its last separator into `(head, basename)`. -/
def splitLast (p : String) : String × String :=
  let cs := p.data
  let i := (cs.reverse.takeWhile (fun c => c ≠ '/')).length
  if i = cs.length then ("", p)
  else (String.mk (cs.take (cs.length - i - 1)), String.mk (cs.drop (cs.length - i)))

/-! ## Record store (src/database.py)

`execute_query` opens a connection (creating an empty database file when
none exists at the path), runs one statement, and catches every
`sqlite3.Error`, returning `None` in that case; a successful `SELECT`
returns its rows and any other successful statement returns `None`. -/

/-- The four SQL statements the program issues. -/
inductive Query
  | selectWhere (path : String)
  | selectAll
  | insertRow (path hash : String)
  | createTable
deriving DecidableEq

/-- The database entry at `p`, if the path holds a database file. -/
def findDB (fs : FS) (p : String) : Option DBEntry :=
  fs.dbs.find? (fun e => e.path == p)

/-- The state of the `hashes` table of the database file at `p`. -/
def storedTable (fs : FS) (p : String) : Option Rows :=
  match findDB fs p with
  | some e => e.table
  | none => none

/-- Model of `sqlite3.connect`: a missing database file is created empty. -/
def connectDB (fs : FS) (p : String) : FS :=
  if fs.dbs.any (fun e => e.path == p) then fs
  else { fs with dbs := fs.dbs ++ [⟨p, none⟩] }

/-- Overwrite the `hashes` table of the database file at `p`. -/
def setTable (fs : FS) (p : String) (t : Option Rows) : FS :=
  { fs with dbs := fs.dbs.map (fun e => if e.path == p then { e with table := t } else e) }

/-- Engine semantics of one statement against the `hashes` table: either an
`sqlite3.Error` message, or a fetch result (`some rows` for a `SELECT`,
`none` otherwise) together with an optional table update. -/
def runQuery (t : Option Rows) (q : Query) : Except String (Option Rows × Option (Option Rows)) :=
  match q, t with
  | .createTable, none => .ok (none, some (some []))
  | .createTable, some _ => .ok (none, none)
  | .selectAll, none => .error "no such table: hashes"
  | .selectAll, some rows => .ok (some rows, none)
  | .selectWhere _, none => .error "no such table: hashes"
  | .selectWhere p, some rows => .ok (some (rows.filter (fun r => r.1 == p)), none)
  | .insertRow _ _, none => .error "no such table: hashes"
  | .insertRow p h, some rows =>
      if rows.any (fun r => r.1 == p) then .error "UNIQUE constraint failed: hashes.path"
      else .ok (none, some (some (rows ++ [(p, h)])))

/-- Model of `execute_query`: connect, run one statement, catch any
`sqlite3.Error` (logging it) and return `None` for it.  A path occupied by a
regular file is not a database: every statement against it fails. -/
def execute_query (fs : FS) (db_file : String) (q : Query) : Option Rows × FS :=
  if isRegFile fs db_file then (none, fs)
  else
    let fs1 := connectDB fs db_file
    match runQuery (storedTable fs1 db_file) q with
    | .ok (res, none) => (res, fs1)
    | .ok (res, some t) => (res, setTable fs1 db_file t)
    | .error _ => (none, fs1)

/-- Model of `media_file_exist`: `bool(result)` is false both for `None`
and for an empty row list. -/
def media_file_exist (fs : FS) (db_file path : String) : Bool × FS :=
  let (res, fs1) := execute_query fs db_file (.selectWhere path)
  (match res with
   | some rows => !rows.isEmpty
   | none => false, fs1)

/-- Model of `get_hashes`. -/
def get_hashes (fs : FS) (db_file : String) : Option Rows × FS :=
  execute_query fs db_file .selectAll

/-- Model of `add_hash`. -/
def add_hash (fs : FS) (db_file path generated_hash : String) : FS :=
  (execute_query fs db_file (.insertRow path generated_hash)).2

/-- Model of `create_new_database`. -/
def create_new_database (fs : FS) (db_file : String) : FS :=
  (execute_query fs db_file .createTable).2

/-! ## Orchestrator (src/main.py) -/

/-- The configured media extensions (`MEDIA_EXTENSIONS = (".mp4", ".mkv")`). -/
def MEDIA_EXTENSIONS : List String := [".mp4", ".mkv"]

/-- The store filename (`DB_FILE = "hashmyfiles.db"`). -/
def DB_FILE : String := "hashmyfiles.db"

/-- Model of Python `str.startswith`: a raw string comparison. -/
def strStartsWith (s pre : String) : Bool :=
  s.data.take pre.data.length == pre.data

/-- Model of Python `str.endswith` with one suffix: a raw, case-sensitive
string comparison. -/
def strEndsWith (s suffix : String) : Bool :=
  s.data.drop (s.data.length - suffix.data.length) == suffix.data
    && suffix.data.length ≤ s.data.length

/-- `os.walk` visits `dir_path` and its descendants. -/
def underDir (dir_path root : String) : Bool :=
  root == dir_path || strStartsWith root (dir_path ++ "/")

/-- The `(root, basename)` pairs `os.walk dir_path` yields, over every file
on disk (regular files and database files alike). -/
def walkEntries (fs : FS) (dir_path : String) : List (String × String) :=
  (fs.files.map (fun f => (f.dir, f.name)) ++
   fs.dbs.map (fun e => splitLast e.path)).filter
    (fun rn => underDir dir_path rn.1)

/-- Model of `str.endswith` applied to a tuple of suffixes: a raw,
case-sensitive suffix match against any of them. -/
def endsWithAny (s : String) (extensions : List String) : Bool :=
  extensions.any (fun e => strEndsWith s e)

/-- Model of `find_files_with_extension`: walk the tree and keep the joined
path of every file whose basename ends with one of the extensions. -/
def find_files_with_extension (fs : FS) (dir_path : String) (extensions : List String) :
    List String :=
  ((walkEntries fs dir_path).filter (fun rn => endsWithAny rn.2 extensions)).map
    (fun rn => osPathJoin rn.1 rn.2)

/-- Model of `generate_sha256_hash`: open the file and hash it in
`BLOCK_SIZE`-byte reads.  Every call site passes the path of a file that
exists, so the missing-file default is never reached. -/
def generate_sha256_hash (fs : FS) (file_path : String) : String :=
  sha256StreamHex ((readFile fs file_path).getD [])

/-- Accumulator of generate's per-file loop: the filesystem, the lines
printed so far, and the files hashed so far. -/
structure GenAcc where
  fs : FS
  output : List String
  hashed : List String
deriving DecidableEq

/-- One iteration of generate's loop: skip the file when the store already
has it, otherwise hash it and insert the record. -/
def genStep (db_file : String) (acc : GenAcc) (media_file : String) : GenAcc :=
  let (ex, fs1) := media_file_exist acc.fs db_file media_file
  if ex then { acc with fs := fs1 }
  else
    let generated_hash := generate_sha256_hash fs1 media_file
    { fs := add_hash fs1 db_file media_file generated_hash,
      output := acc.output ++ ["Generate hash for: " ++ media_file],
      hashed := acc.hashed ++ [media_file] }

/-- Result of a run of `generate`. -/
structure GenResult where
  fs : FS
  exitCode : Nat
  output : List String
  hashed : List String
deriving DecidableEq

/-- Model of `generate`. -/
def generate (fs : FS) (dir_path : String) : GenResult :=
  if isDir fs dir_path then
    let db_file := osPathJoin dir_path DB_FILE
    let start : GenAcc :=
      if isFile fs db_file then
        ⟨fs, [db_file ++ " exists. Will look for new files...\n"], []⟩
      else
        ⟨create_new_database fs db_file,
         [db_file ++ " does not exist. Creating a new database...\n"], []⟩
    let media_files := find_files_with_extension start.fs dir_path MEDIA_EXTENSIONS
    let acc := media_files.foldl (genStep db_file) start
    ⟨acc.fs, 0, acc.output ++ ["Done"], acc.hashed⟩
  else ⟨fs, 1, [dir_path ++ " is not a directory"], []⟩

/-- Classification of one stored record by verify's loop: `none` for OK,
`some (path, expected, actual-or-reason)` for a corrupted record.  A record
whose file is missing is corrupted with reason "File not found" and is not
hashed; otherwise the hash is recomputed and compared with the stored one. -/
def verifyStep (fs : FS) (row : String × String) : Option (String × String × String) :=
  if isFile fs row.1 then
    let generated_hash := generate_sha256_hash fs row.1
    if generated_hash == row.2 then none
    else some (row.1, row.2, generated_hash)
  else some (row.1, row.2, "File not found")

/-- Accumulator of verify's loop: corrupted records and printed lines. -/
structure VerAcc where
  corrupted : List (String × String × String)
  output : List String
deriving DecidableEq

/-- One iteration of verify's loop. -/
def verStep (fs : FS) (acc : VerAcc) (row : String × String) : VerAcc :=
  match verifyStep fs row with
  | some c => ⟨acc.corrupted ++ [c], acc.output ++ [row.1 ++ " [Corrupted]"]⟩
  | none => ⟨acc.corrupted, acc.output ++ [row.1 ++ " [OK]"]⟩

/-- Result of a run of `verify`.  `crashed` is true when the store query
failed and the loop iterated over `None`, which raises an uncaught
`TypeError` (the interpreter then exits with code 1). -/
structure VerifyResult where
  fs : FS
  exitCode : Nat
  output : List String
  corrupted : List (String × String × String)
  crashed : Bool
deriving DecidableEq

/-- The final per-file summary lines verify prints for corrupted records. -/
def summaryLines (cs : List (String × String × String)) : List String :=
  cs.map (fun c =>
    "File: " ++ c.1 ++ "\n" ++ "Expected hash: " ++ c.2.1 ++ "\n" ++
    "File hash: " ++ c.2.2 ++ "\n")

/-- Model of `verify`. -/
def verify (fs : FS) (dir_path : String) : VerifyResult :=
  let db_file := osPathJoin dir_path DB_FILE
  if isFile fs db_file then
    let out0 := [db_file ++ " exists. Verifying files...\n"]
    let (rowsOpt, fs1) := get_hashes fs db_file
    match rowsOpt with
    | none => ⟨fs1, 1, out0, [], true⟩
    | some rows =>
        let acc := rows.foldl (verStep fs1) ⟨[], []⟩
        if acc.corrupted.isEmpty then
          ⟨fs1, 0, out0 ++ acc.output ++ ["\nNo corrupted files found"], acc.corrupted, false⟩
        else
          ⟨fs1, 1,
           out0 ++ acc.output ++
             ["\n" ++ toString acc.corrupted.length ++ " corrupted files:"] ++
             summaryLines acc.corrupted,
           acc.corrupted, false⟩
  else
    ⟨fs, 1, [db_file ++ " does not exist. Please generate hashes first."], [], false⟩

/-- True when the row list has a record keyed by `p`. -/
def hasKey (rows : Rows) (p : String) : Bool :=
  rows.any (fun r => r.1 == p)

/-- Result of the command-line entry point. -/
structure MainResult where
  fs : FS
  exitCode : Nat
  output : List String
deriving DecidableEq

/-- Model of the `__main__` block: argument count check, then dispatch on
the option. -/
def mainRun (args : List String) (fs : FS) : MainResult :=
  if args.length < 2 then ⟨fs, 1, ["Not enough arguments"]⟩
  else
    let option := args.getD 0 ""
    let directory := args.getD 1 ""
    if option = "-g" then
      let r := generate fs directory
      ⟨r.fs, r.exitCode, r.output⟩
    else if option = "-v" then
      let r := verify fs directory
      ⟨r.fs, r.exitCode, r.output⟩
    else ⟨fs, 1, ["Invalid option"]⟩

/-! ## Helper lemmas -/

theorem foldl_shaUpdate (L : List (List Nat)) (acc : List Nat) :
    L.foldl shaUpdate acc = acc ++ L.flatten := by
  induction L generalizing acc with
  | nil => simp
  | cons x xs ih => simp [shaUpdate, ih, List.append_assoc]

theorem chunksOf_join_aux (n : Nat) (hn : n ≠ 0) :
    ∀ (k : Nat) (l : List Nat), l.length ≤ k → (chunksOf n l).flatten = l := by
  intro k
  induction k with
  | zero =>
      intro l hl
      have hnil : l = [] := List.eq_nil_of_length_eq_zero (Nat.le_zero.mp hl)
      subst hnil
      rw [chunksOf]
      simp
  | succ k ih =>
      intro l hl
      rw [chunksOf]
      split
      · next h =>
          rcases h with h | h
          · simp [h]
          · exact absurd h hn
      · next h =>
          have he : l ≠ [] := fun hc => h (Or.inl hc)
          have hd : (l.drop n).length ≤ k := by
            have hpos : 0 < l.length := List.length_pos.mpr he
            simp only [List.length_drop]
            omega
          calc (l.take n :: chunksOf n (l.drop n)).flatten
              = l.take n ++ (chunksOf n (l.drop n)).flatten := by simp
            _ = l.take n ++ l.drop n := by rw [ih _ hd]
            _ = l := List.take_append_drop n l

theorem chunksOf_join (n : Nat) (hn : n ≠ 0) (l : List Nat) : (chunksOf n l).flatten = l :=
  chunksOf_join_aux n hn l.length l le_rfl

theorem sha256StreamHex_eq (content : List Nat) :
    sha256StreamHex content = sha256hex content := by
  unfold sha256StreamHex shaHexdigest
  rw [foldl_shaUpdate, List.nil_append, chunksOf_join BLOCK_SIZE (by decide)]

theorem map_id_of {α : Type} (l : List α) (f : α → α) (h : ∀ a ∈ l, f a = a) :
    l.map f = l := by
  induction l with
  | nil => rfl
  | cons a l ih =>
      simp only [List.map_cons, h a (List.mem_cons_self a l)]
      rw [ih (fun x hx => h x (List.mem_cons_of_mem a hx))]

theorem filter_isEmpty_eq (l : Rows) (q : String × String → Bool) :
    (l.filter q).isEmpty = !l.any q := by
  induction l with
  | nil => rfl
  | cons a l ih =>
      by_cases h : q a = true
      · simp [List.filter_cons, h]
      · simp only [Bool.not_eq_true] at h
        simp [List.filter_cons, h, ih]

theorem connectDB_of_any (fs : FS) (p : String)
    (h : fs.dbs.any (fun e => e.path == p) = true) : connectDB fs p = fs := by
  simp [connectDB, h]

theorem any_of_findDB (fs : FS) (p : String) (e : DBEntry)
    (h : findDB fs p = some e) : fs.dbs.any (fun x => x.path == p) = true := by
  have h' : fs.dbs.find? (fun x => x.path == p) = some e := h
  have hp := List.find?_some h'
  exact List.any_eq_true.mpr ⟨e, List.mem_of_find?_eq_some h', hp⟩

theorem isFile_of_findDB (fs : FS) (p : String) (e : DBEntry)
    (h : findDB fs p = some e) : isFile fs p = true := by
  simp only [isFile, Bool.or_eq_true]
  exact Or.inr (any_of_findDB fs p e h)

theorem find?_setTable_aux (l : List DBEntry) (p : String) (t : Option Rows) :
    (l.map (fun e => if e.path == p then { e with table := t } else e)).find?
        (fun e => e.path == p)
      = (l.find? (fun e => e.path == p)).map (fun e => { e with table := t }) := by
  induction l with
  | nil => rfl
  | cons a l ih =>
      by_cases h : (a.path == p) = true
      · rw [List.map_cons, if_pos h]
        simp only [List.find?_cons, h]
        rfl
      · rw [List.map_cons, if_neg h]
        have h' : (a.path == p) = false := Bool.not_eq_true _ |>.mp h
        simp only [List.find?_cons, h', ih]

theorem findDB_setTable (fs : FS) (p : String) (t : Option Rows) :
    findDB (setTable fs p t) p = (findDB fs p).map (fun e => { e with table := t }) := by
  unfold findDB setTable
  exact find?_setTable_aux fs.dbs p t

theorem setTable_files (fs : FS) (p : String) (t : Option Rows) :
    (setTable fs p t).files = fs.files := rfl

theorem setTable_dirs (fs : FS) (p : String) (t : Option Rows) :
    (setTable fs p t).dirs = fs.dirs := rfl

theorem map_path_upd (l : List DBEntry) (p : String) (t : Option Rows) :
    (l.map (fun e => if e.path == p then { e with table := t } else e)).map DBEntry.path
      = l.map DBEntry.path := by
  induction l with
  | nil => rfl
  | cons a l ih =>
      by_cases h : (a.path == p) = true
      · rw [List.map_cons, if_pos h]
        simp only [List.map_cons, ih]
      · rw [List.map_cons, if_neg h]
        simp only [List.map_cons, ih]

theorem setTable_paths (fs : FS) (p : String) (t : Option Rows) :
    (setTable fs p t).dbs.map DBEntry.path = fs.dbs.map DBEntry.path := by
  simp only [setTable]
  exact map_path_upd fs.dbs p t

theorem isRegFile_setTable (fs : FS) (p q : String) (t : Option Rows) :
    isRegFile (setTable fs p t) q = isRegFile fs q := rfl

theorem generate_sha256_hash_setTable (fs : FS) (p q : String) (t : Option Rows) :
    generate_sha256_hash (setTable fs p t) q = generate_sha256_hash fs q := rfl

theorem storedTable_of_findDB (fs : FS) (p : String) (e : DBEntry)
    (h : findDB fs p = some e) : storedTable fs p = e.table := by
  simp [storedTable, h]

theorem media_file_exist_of_table (fs : FS) (db p : String) (e : DBEntry) (rows : Rows)
    (hreg : isRegFile fs db = false) (hfind : findDB fs db = some e)
    (htab : e.table = some rows) :
    media_file_exist fs db p = (hasKey rows p, fs) := by
  have hconn := connectDB_of_any fs db (any_of_findDB fs db e hfind)
  unfold media_file_exist execute_query
  rw [hreg]
  simp only [Bool.false_eq_true, if_false, hconn, storedTable_of_findDB fs db e hfind, htab,
    runQuery]
  simp [hasKey, filter_isEmpty_eq]

theorem get_hashes_of_table (fs : FS) (db : String) (e : DBEntry) (rows : Rows)
    (hreg : isRegFile fs db = false) (hfind : findDB fs db = some e)
    (htab : e.table = some rows) :
    get_hashes fs db = (some rows, fs) := by
  have hconn := connectDB_of_any fs db (any_of_findDB fs db e hfind)
  unfold get_hashes execute_query
  rw [hreg]
  simp [hconn, storedTable_of_findDB fs db e hfind, htab, runQuery]

theorem add_hash_of_table (fs : FS) (db p h : String) (e : DBEntry) (rows : Rows)
    (hreg : isRegFile fs db = false) (hfind : findDB fs db = some e)
    (htab : e.table = some rows) (hkey : hasKey rows p = false) :
    add_hash fs db p h = setTable fs db (some (rows ++ [(p, h)])) := by
  have hconn := connectDB_of_any fs db (any_of_findDB fs db e hfind)
  unfold add_hash execute_query
  rw [hreg]
  simp only [hasKey] at hkey
  simp [hconn, storedTable_of_findDB fs db e hfind, htab, runQuery, hkey]

theorem execute_query_selectAll_snd (fs : FS) (db : String) (h : isFile fs db = true) :
    (execute_query fs db .selectAll).2 = fs := by
  unfold execute_query
  by_cases hr : isRegFile fs db = true
  · simp [hr]
  · have hr' : isRegFile fs db = false := Bool.not_eq_true _ |>.mp hr
    have hany : fs.dbs.any (fun e => e.path == db) = true := by
      simp only [isFile, Bool.or_eq_true] at h
      rcases h with h | h
      · exact absurd h hr
      · exact h
    have hconn : connectDB fs db = fs := connectDB_of_any fs db hany
    rw [hr']
    simp only [Bool.false_eq_true, if_false, hconn]
    cases storedTable fs db <;> simp [runQuery]

/-! ## Claims -/

/-- C5.  The streaming, 64 KiB-block hash loop of `generate_sha256_hash`
computes the SHA-256 hex digest of the file's entire byte content in one
pass, and the hash of a file is a function of its byte content alone, so the
hash recorded by generate equals the hash recomputed by verify whenever the
bytes are unchanged. -/
theorem streaming_hash_eq_one_pass (fs : FS) (file_path : String) (content : List Nat) :
    sha256StreamHex content = sha256hex content ∧
    generate_sha256_hash fs file_path = sha256hex ((readFile fs file_path).getD []) :=
  ⟨sha256StreamHex_eq content,
   (sha256StreamHex_eq ((readFile fs file_path).getD []) : _)⟩

/-- C7.  On a path that is not a directory, generate prints a message and
exits with code 1, leaving the filesystem untouched: no store file is
created, nothing is hashed, nothing is inserted. -/
theorem generate_non_directory (fs : FS) (dir_path : String)
    (h : isDir fs dir_path = false) :
    generate fs dir_path = ⟨fs, 1, [dir_path ++ " is not a directory"], []⟩ := by
  simp [generate, h]

theorem generate_non_directory_witness :
    generate ⟨[], [], []⟩ "x" = ⟨⟨[], [], []⟩, 1, ["x is not a directory"], []⟩ :=
  generate_non_directory ⟨[], [], []⟩ "x" (by decide)

/-- C8.  When the store file does not exist in the directory, verify prints
the message telling the operator to generate hashes first and exits with
code 1, without loading records, hashing, or touching the filesystem. -/
theorem verify_missing_store (fs : FS) (dir_path : String)
    (h : isFile fs (osPathJoin dir_path DB_FILE) = false) :
    verify fs dir_path =
      ⟨fs, 1,
       [osPathJoin dir_path DB_FILE ++ " does not exist. Please generate hashes first."],
       [], false⟩ := by
  simp [verify, h]

theorem verify_missing_store_witness :
    verify ⟨["d"], [], []⟩ "d" =
      ⟨⟨["d"], [], []⟩, 1,
       ["d/hashmyfiles.db does not exist. Please generate hashes first."], [], false⟩ :=
  verify_missing_store ⟨["d"], [], []⟩ "d" (by decide)

/-- C10.  Verify never modifies the record store: it only reads (its single
query is a SELECT), so the filesystem — in particular the set of stored
records — after a verify run is the one before it. -/
theorem verify_preserves_fs (fs : FS) (dir_path : String) :
    (verify fs dir_path).fs = fs ∧
    storedTable (verify fs dir_path).fs (osPathJoin dir_path DB_FILE) =
      storedTable fs (osPathJoin dir_path DB_FILE) := by
  suffices h : (verify fs dir_path).fs = fs by
    exact ⟨h, by rw [h]⟩
  unfold verify
  by_cases hf : isFile fs (osPathJoin dir_path DB_FILE) = true
  · have hsnd : (get_hashes fs (osPathJoin dir_path DB_FILE)).2 = fs :=
      execute_query_selectAll_snd fs (osPathJoin dir_path DB_FILE) hf
    simp only [hf, if_true]
    rcases hq : get_hashes fs (osPathJoin dir_path DB_FILE) with ⟨ro, fs1⟩
    have hfs1 : fs1 = fs := by rw [hq] at hsnd; exact hsnd
    cases ro with
    | none => simp [hq, hfs1]
    | some rows =>
        simp only [hq, hfs1]
        split <;> rfl
  · have hf' : isFile fs (osPathJoin dir_path DB_FILE) = false := Bool.not_eq_true _ |>.mp hf
    simp [hf']

/-- C6.  Storage-layer failures are caught at the store boundary and surface
as a null/empty result rather than a raised error: with a broken store (no
`hashes` table) the existence check returns false and leaves the filesystem
unchanged, listing returns a null result, and insertion silently does
nothing; with a working store the existence check also returns false when
the path is simply absent, so a caller cannot distinguish the two, and an
insert that violates the primary key is swallowed leaving the store
unchanged. -/
theorem store_failure_semantics (fs : FS) (db p h : String) (e : DBEntry)
    (hreg : isRegFile fs db = false) (hfind : findDB fs db = some e) :
    (e.table = none →
       media_file_exist fs db p = (false, fs) ∧
       get_hashes fs db = (none, fs) ∧
       add_hash fs db p h = fs) ∧
    (∀ rows, e.table = some rows →
       (hasKey rows p = false → (media_file_exist fs db p).1 = false) ∧
       (hasKey rows p = true → add_hash fs db p h = fs)) := by
  have hconn : connectDB fs db = fs := connectDB_of_any fs db (any_of_findDB fs db e hfind)
  have hst : storedTable fs db = e.table := storedTable_of_findDB fs db e hfind
  constructor
  · intro hnone
    rw [hnone] at hst
    refine ⟨?_, ?_, ?_⟩
    · unfold media_file_exist execute_query
      rw [hreg]
      simp [hconn, hst, runQuery]
    · unfold get_hashes execute_query
      rw [hreg]
      simp [hconn, hst, runQuery]
    · unfold add_hash execute_query
      rw [hreg]
      simp [hconn, hst, runQuery]
  · intro rows hrows
    refine ⟨?_, ?_⟩
    · intro hk
      rw [media_file_exist_of_table fs db p e rows hreg hfind hrows]
      simp only [hk]
    · intro hk
      rw [hrows] at hst
      unfold add_hash execute_query
      rw [hreg]
      simp only [hasKey] at hk
      simp [hconn, hst, runQuery, hk]

theorem store_failure_semantics_witness :
    media_file_exist ⟨[], [], [⟨"db", none⟩]⟩ "db" "x" = (false, ⟨[], [], [⟨"db", none⟩]⟩) ∧
    get_hashes ⟨[], [], [⟨"db", none⟩]⟩ "db" = (none, ⟨[], [], [⟨"db", none⟩]⟩) ∧
    add_hash ⟨[], [], [⟨"db", none⟩]⟩ "db" "x" "h" = ⟨[], [], [⟨"db", none⟩]⟩ :=
  (store_failure_semantics ⟨[], [], [⟨"db", none⟩]⟩ "db" "x" "h" ⟨"db", none⟩ rfl rfl).1 rfl

/-- C9.  The CLI prints an error and exits nonzero without dispatching when
fewer than two arguments are given or the first argument is neither `-g` nor
`-v`; `-g` dispatches to generate on the second argument and `-v` to verify
on the second argument. -/
theorem cli_dispatch (args : List String) (fs : FS) :
    (args.length < 2 → mainRun args fs = ⟨fs, 1, ["Not enough arguments"]⟩) ∧
    (∀ a b rest, args = a :: b :: rest →
      (a = "-g" → mainRun args fs =
        ⟨(generate fs b).fs, (generate fs b).exitCode, (generate fs b).output⟩) ∧
      (a = "-v" → mainRun args fs =
        ⟨(verify fs b).fs, (verify fs b).exitCode, (verify fs b).output⟩) ∧
      (a ≠ "-g" → a ≠ "-v" → mainRun args fs = ⟨fs, 1, ["Invalid option"]⟩)) := by
  constructor
  · intro hlen
    simp [mainRun, hlen]
  · intro a b rest hargs
    subst hargs
    have hlen : ¬ ((a :: b :: rest).length < 2) := by
      simp only [List.length_cons]
      omega
    refine ⟨?_, ?_, ?_⟩
    · intro hg
      simp [mainRun, hlen, hg]
    · intro hv
      by_cases hg : a = "-g"
      · rw [hg] at hv
        exact absurd hv (by decide)
      · simp [mainRun, hlen, hg, hv]
    · intro hg hv
      simp [mainRun, hlen, hg, hv]

theorem verFold_corrupted (fs : FS) (rows : Rows) (acc : VerAcc) :
    (rows.foldl (verStep fs) acc).corrupted = acc.corrupted ++ rows.filterMap (verifyStep fs) := by
  induction rows generalizing acc with
  | nil => simp
  | cons r rs ih =>
      rw [List.foldl_cons, ih]
      cases h : verifyStep fs r <;> simp [verStep, h, List.filterMap_cons]

/-- C2.  Verify classifies every stored record `(path, hash)` exactly as the
spec says: its corrupted list is the stored rows filtered through the
per-record classification, which marks a record whose file is gone as
corrupted with reason "File not found" (no hash is computed on that branch),
marks a hash mismatch as corrupted carrying the stored (expected) and the
recomputed (actual) hash, and reports a match as OK (not corrupted). -/
theorem verify_classification (fs : FS) (dir_path p hsh : String) (e : DBEntry) (rows : Rows)
    (hreg : isRegFile fs (osPathJoin dir_path DB_FILE) = false)
    (hfind : findDB fs (osPathJoin dir_path DB_FILE) = some e)
    (htab : e.table = some rows) :
    (verify fs dir_path).corrupted = rows.filterMap (verifyStep fs) ∧
    (isFile fs p = false → verifyStep fs (p, hsh) = some (p, hsh, "File not found")) ∧
    (isFile fs p = true → generate_sha256_hash fs p ≠ hsh →
        verifyStep fs (p, hsh) = some (p, hsh, generate_sha256_hash fs p)) ∧
    (isFile fs p = true → generate_sha256_hash fs p = hsh →
        verifyStep fs (p, hsh) = none) := by
  have hfile := isFile_of_findDB fs (osPathJoin dir_path DB_FILE) e hfind
  have hq := get_hashes_of_table fs (osPathJoin dir_path DB_FILE) e rows hreg hfind htab
  refine ⟨?_, ?_, ?_, ?_⟩
  · unfold verify
    simp only [hfile, if_true, hq]
    split <;> simp [verFold_corrupted]
  · intro hp
    simp [verifyStep, hp]
  · intro hp hne
    have hb : (generate_sha256_hash fs p == hsh) = false := by
      simpa using hne
    simp [verifyStep, hp, hb]
  · intro hp heq
    simp [verifyStep, hp, heq]

theorem verify_classification_witness :
    (verify ⟨["d"], [], [⟨"d/hashmyfiles.db", some [("d/a.mp4", "h1")]⟩]⟩ "d").corrupted =
      [("d/a.mp4", "h1", "File not found")] := by
  rw [(verify_classification ⟨["d"], [], [⟨"d/hashmyfiles.db", some [("d/a.mp4", "h1")]⟩]⟩
        "d" "d/a.mp4" "h1" ⟨"d/hashmyfiles.db", some [("d/a.mp4", "h1")]⟩
        [("d/a.mp4", "h1")] rfl rfl rfl).1]
  decide

/-- C1.  For a directory whose record store exists (the store file holds a
`hashes` table), verify exits with code 0 exactly when no stored record is
classified corrupted and with code 1 exactly when at least one is. -/
theorem verify_exit_code (fs : FS) (dir_path : String) (e : DBEntry) (rows : Rows)
    (hreg : isRegFile fs (osPathJoin dir_path DB_FILE) = false)
    (hfind : findDB fs (osPathJoin dir_path DB_FILE) = some e)
    (htab : e.table = some rows) :
    ((verify fs dir_path).exitCode = 0 ↔ rows.filterMap (verifyStep fs) = []) ∧
    ((verify fs dir_path).exitCode = 1 ↔ rows.filterMap (verifyStep fs) ≠ []) := by
  have hfile := isFile_of_findDB fs (osPathJoin dir_path DB_FILE) e hfind
  have hq := get_hashes_of_table fs (osPathJoin dir_path DB_FILE) e rows hreg hfind htab
  have hacc : (rows.foldl (verStep fs) ⟨[], []⟩).corrupted = rows.filterMap (verifyStep fs) := by
    simpa using verFold_corrupted fs rows ⟨[], []⟩
  unfold verify
  simp only [hfile, if_true, hq]
  by_cases hemp : rows.filterMap (verifyStep fs) = []
  · simp [hacc, hemp]
  · have hne : (rows.filterMap (verifyStep fs)).isEmpty = false := by
      cases h : rows.filterMap (verifyStep fs) with
      | nil => exact absurd h hemp
      | cons a l => rfl
    simp [hacc, hne, hemp]

theorem verify_exit_code_witness :
    (verify ⟨["d"], [], [⟨"d/hashmyfiles.db", some []⟩]⟩ "d").exitCode = 0 :=
  (verify_exit_code ⟨["d"], [], [⟨"d/hashmyfiles.db", some []⟩]⟩ "d"
    ⟨"d/hashmyfiles.db", some []⟩ [] rfl rfl rfl).1.mpr rfl

theorem cli_dispatch_witness :
    mainRun ["-q", "d"] ⟨[], [], []⟩ = ⟨⟨[], [], []⟩, 1, ["Invalid option"]⟩ :=
  ((cli_dispatch ["-q", "d"] ⟨[], [], []⟩).2 "-q" "d" [] rfl).2.2 (by decide) (by decide)

theorem genStep_hashed (db : String) (acc : GenAcc) (m : String) :
    (genStep db acc m).hashed = acc.hashed ∨ (genStep db acc m).hashed = acc.hashed ++ [m] := by
  unfold genStep
  rcases hmf : media_file_exist acc.fs db m with ⟨ex, fs1⟩
  cases ex <;> simp

theorem genFold_hashed_mem (db : String) (ms : List String) :
    ∀ (acc : GenAcc) (p : String), p ∈ (ms.foldl (genStep db) acc).hashed →
      p ∈ acc.hashed ∨ p ∈ ms := by
  induction ms with
  | nil => intro acc p hp; exact Or.inl hp
  | cons m msr ih =>
      intro acc p hp
      rw [List.foldl_cons] at hp
      rcases ih (genStep db acc m) p hp with h | h
      · rcases genStep_hashed db acc m with he | he
        · rw [he] at h
          exact Or.inl h
        · rw [he] at h
          rcases List.mem_append.mp h with h | h
          · exact Or.inl h
          · have : p = m := by simpa using h
            subst this
            exact Or.inr (List.mem_cons_self p msr)
      · exact Or.inr (List.mem_cons_of_mem m h)

theorem mem_find_files (fs : FS) (dir_path q : String) (exts : List String) :
    q ∈ find_files_with_extension fs dir_path exts ↔
      ∃ rn ∈ walkEntries fs dir_path,
        q = osPathJoin rn.1 rn.2 ∧ endsWithAny rn.2 exts = true := by
  unfold find_files_with_extension
  simp only [List.mem_map, List.mem_filter]
  constructor
  · rintro ⟨rn, ⟨hmem, hext⟩, rfl⟩
    exact ⟨rn, hmem, rfl, hext⟩
  · rintro ⟨rn, hmem, rfl, hext⟩
    exact ⟨rn, ⟨hmem, hext⟩, rfl⟩

/-- C4.  A file enumerated by the walk is a candidate exactly when its
basename ends, as a raw case-sensitive string suffix, with one of the
configured extensions; `foo.mp4x` and `x.MP4` fail the suffix test while
`clip.mkv` passes it; the store filename `hashmyfiles.db` fails it, so the
store file is never a candidate; and everything generate hashes is a walked
file whose basename passes the suffix test. -/
theorem candidate_extension_filter (fs : FS) (dir_path q : String) :
    (q ∈ find_files_with_extension fs dir_path MEDIA_EXTENSIONS ↔
       ∃ rn ∈ walkEntries fs dir_path,
         q = osPathJoin rn.1 rn.2 ∧ endsWithAny rn.2 MEDIA_EXTENSIONS = true) ∧
    endsWithAny "foo.mp4x" MEDIA_EXTENSIONS = false ∧
    endsWithAny "x.MP4" MEDIA_EXTENSIONS = false ∧
    endsWithAny DB_FILE MEDIA_EXTENSIONS = false ∧
    endsWithAny "clip.mkv" MEDIA_EXTENSIONS = true ∧
    (∀ x ∈ (generate fs dir_path).hashed,
       ∃ d n, x = osPathJoin d n ∧ endsWithAny n MEDIA_EXTENSIONS = true) := by
  refine ⟨mem_find_files fs dir_path q MEDIA_EXTENSIONS,
          by decide, by decide, by decide, by decide, ?_⟩
  intro x hx
  by_cases hdir : isDir fs dir_path = true
  · by_cases hf : isFile fs (osPathJoin dir_path DB_FILE) = true
    · simp only [generate, hdir, if_true, hf] at hx
      rcases genFold_hashed_mem _ _ _ x hx with h | h
      · simp at h
      · rcases (mem_find_files _ dir_path x MEDIA_EXTENSIONS).mp h with ⟨rn, _, hq, hext⟩
        exact ⟨rn.1, rn.2, hq, hext⟩
    · have hf' : isFile fs (osPathJoin dir_path DB_FILE) = false := Bool.not_eq_true _ |>.mp hf
      simp only [generate, hdir, if_true, hf', Bool.false_eq_true, if_false] at hx
      rcases genFold_hashed_mem _ _ _ x hx with h | h
      · simp at h
      · rcases (mem_find_files _ dir_path x MEDIA_EXTENSIONS).mp h with ⟨rn, _, hq, hext⟩
        exact ⟨rn.1, rn.2, hq, hext⟩
  · have hdir' : isDir fs dir_path = false := Bool.not_eq_true _ |>.mp hdir
    simp [generate, hdir'] at hx

theorem candidate_extension_filter_witness :
    "d/a.mp4" ∈ find_files_with_extension
        ⟨["d"], [⟨"d", "a.mp4", [97]⟩, ⟨"d", "b.txt", [98]⟩], []⟩ "d" MEDIA_EXTENSIONS :=
  (candidate_extension_filter
      ⟨["d"], [⟨"d", "a.mp4", [97]⟩, ⟨"d", "b.txt", [98]⟩], []⟩ "d" "d/a.mp4").1.mpr
    ⟨("d", "a.mp4"), by decide, by decide, by decide⟩

theorem connectDB_files (fs : FS) (p : String) : (connectDB fs p).files = fs.files := by
  unfold connectDB
  split <;> rfl

theorem connectDB_dirs (fs : FS) (p : String) : (connectDB fs p).dirs = fs.dirs := by
  unfold connectDB
  split <;> rfl

theorem execute_query_files (fs : FS) (db : String) (q : Query) :
    ((execute_query fs db q).2).files = fs.files := by
  unfold execute_query
  by_cases hr : isRegFile fs db = true
  · simp [hr]
  · have hr' : isRegFile fs db = false := Bool.not_eq_true _ |>.mp hr
    rw [hr']
    simp only [Bool.false_eq_true, if_false]
    rcases hq : runQuery (storedTable (connectDB fs db) db) q with msg | ⟨res, tu⟩
    · simp [hq, connectDB_files]
    · cases tu <;> simp [hq, setTable_files, connectDB_files]

theorem execute_query_dirs (fs : FS) (db : String) (q : Query) :
    ((execute_query fs db q).2).dirs = fs.dirs := by
  unfold execute_query
  by_cases hr : isRegFile fs db = true
  · simp [hr]
  · have hr' : isRegFile fs db = false := Bool.not_eq_true _ |>.mp hr
    rw [hr']
    simp only [Bool.false_eq_true, if_false]
    rcases hq : runQuery (storedTable (connectDB fs db) db) q with msg | ⟨res, tu⟩
    · simp [hq, connectDB_dirs]
    · cases tu <;> simp [hq, setTable_dirs, connectDB_dirs]

theorem isRegFile_congr (fs fs' : FS) (p : String) (h : fs.files = fs'.files) :
    isRegFile fs p = isRegFile fs' p := by
  unfold isRegFile
  rw [h]

theorem isDir_congr (fs fs' : FS) (p : String) (h : fs.dirs = fs'.dirs) :
    isDir fs p = isDir fs' p := by
  unfold isDir
  rw [h]

theorem find_files_congr (fs fs' : FS) (dir_path : String) (exts : List String)
    (hf : fs.files = fs'.files)
    (hp : fs.dbs.map DBEntry.path = fs'.dbs.map DBEntry.path) :
    find_files_with_extension fs dir_path exts
      = find_files_with_extension fs' dir_path exts := by
  unfold find_files_with_extension walkEntries
  rw [hf]
  have h1 : fs.dbs.map (fun e => splitLast e.path)
      = (fs.dbs.map DBEntry.path).map splitLast := by
    rw [List.map_map]
    rfl
  have h2 : fs'.dbs.map (fun e => splitLast e.path)
      = (fs'.dbs.map DBEntry.path).map splitLast := by
    rw [List.map_map]
    rfl
  rw [h1, h2, hp]

theorem create_new_database_fresh (fs : FS) (db : String)
    (hreg : isRegFile fs db = false)
    (hany : fs.dbs.any (fun e => e.path == db) = false) :
    findDB (create_new_database fs db) db = some ⟨db, some []⟩ ∧
    (create_new_database fs db).files = fs.files ∧
    (create_new_database fs db).dirs = fs.dirs ∧
    isRegFile (create_new_database fs db) db = false := by
  have hfiles : (create_new_database fs db).files = fs.files :=
    execute_query_files fs db .createTable
  have hdirs : (create_new_database fs db).dirs = fs.dirs :=
    execute_query_dirs fs db .createTable
  refine ⟨?_, hfiles, hdirs, by rw [isRegFile_congr _ fs db hfiles]; exact hreg⟩
  unfold create_new_database execute_query
  rw [hreg]
  simp only [Bool.false_eq_true, if_false]
  have hconn : connectDB fs db = ⟨fs.dirs, fs.files, fs.dbs ++ [⟨db, none⟩]⟩ := by
    unfold connectDB
    rw [hany]
    rfl
  have hfind1 : findDB ⟨fs.dirs, fs.files, fs.dbs ++ [⟨db, none⟩]⟩ db
      = some ⟨db, none⟩ := by
    unfold findDB
    rw [List.find?_append]
    have h1 : fs.dbs.find? (fun e => e.path == db) = none :=
      List.find?_eq_none.mpr (fun x hx hpx =>
        absurd (List.any_eq_true.mpr ⟨x, hx, hpx⟩) (by rw [hany]; exact Bool.false_ne_true))
    rw [h1]
    simp [List.find?_cons]
  have hst : storedTable (connectDB fs db) db = none := by
    rw [hconn]
    unfold storedTable
    rw [hfind1]
  rw [hst]
  simp only [runQuery]
  rw [hconn, findDB_setTable, hfind1]
  rfl

theorem genLoop_keys (db : String) (ms : List String) :
    ∀ (acc : GenAcc) (e : DBEntry) (rows : Rows),
      isRegFile acc.fs db = false →
      findDB acc.fs db = some e →
      e.table = some rows →
      ∃ (e2 : DBEntry) (rows2 : Rows),
        findDB (ms.foldl (genStep db) acc).fs db = some e2 ∧
        e2.table = some rows2 ∧
        (ms.foldl (genStep db) acc).fs.files = acc.fs.files ∧
        (ms.foldl (genStep db) acc).fs.dirs = acc.fs.dirs ∧
        (ms.foldl (genStep db) acc).fs.dbs.map DBEntry.path
          = acc.fs.dbs.map DBEntry.path ∧
        (∀ p, hasKey rows p = true → hasKey rows2 p = true) ∧
        (∀ p ∈ ms, hasKey rows2 p = true) := by
  induction ms with
  | nil =>
      intro acc e rows hreg hfind htab
      exact ⟨e, rows, hfind, htab, rfl, rfl, rfl, fun _ hp => hp, by simp⟩
  | cons m msr ih =>
      intro acc e rows hreg hfind htab
      rw [List.foldl_cons]
      have hmf := media_file_exist_of_table acc.fs db m e rows hreg hfind htab
      by_cases hk : hasKey rows m = true
      · have hstep : genStep db acc m = acc := by
          unfold genStep
          simp [hmf, hk]
        rw [hstep]
        obtain ⟨e2, rows2, h1, h2, h3, h4, h5, h6, h7⟩ := ih acc e rows hreg hfind htab
        refine ⟨e2, rows2, h1, h2, h3, h4, h5, h6, ?_⟩
        intro p hp
        rcases List.mem_cons.mp hp with hpe | hpm
        · subst hpe
          exact h6 p hk
        · exact h7 p hpm
      · have hk' : hasKey rows m = false := Bool.not_eq_true _ |>.mp hk
        have hadd := add_hash_of_table acc.fs db m (generate_sha256_hash acc.fs m) e rows
          hreg hfind htab hk'
        have hstep : genStep db acc m =
            ⟨setTable acc.fs db (some (rows ++ [(m, generate_sha256_hash acc.fs m)])),
             acc.output ++ ["Generate hash for: " ++ m],
             acc.hashed ++ [m]⟩ := by
          unfold genStep
          simp [hmf, hk', hadd]
        rw [hstep]
        have hreg1 : isRegFile
            (setTable acc.fs db (some (rows ++ [(m, generate_sha256_hash acc.fs m)]))) db
              = false := by
          rw [isRegFile_setTable]
          exact hreg
        have hfind1 : findDB
            (setTable acc.fs db (some (rows ++ [(m, generate_sha256_hash acc.fs m)]))) db
              = some ⟨e.path, some (rows ++ [(m, generate_sha256_hash acc.fs m)])⟩ := by
          rw [findDB_setTable, hfind]
          rfl
        obtain ⟨e2, rows2, h1, h2, h3, h4, h5, h6, h7⟩ :=
          ih ⟨setTable acc.fs db (some (rows ++ [(m, generate_sha256_hash acc.fs m)])),
              acc.output ++ ["Generate hash for: " ++ m], acc.hashed ++ [m]⟩
            ⟨e.path, some (rows ++ [(m, generate_sha256_hash acc.fs m)])⟩
            (rows ++ [(m, generate_sha256_hash acc.fs m)]) hreg1 hfind1 rfl
        refine ⟨e2, rows2, h1, h2, ?_, ?_, ?_, ?_, ?_⟩
        · rw [h3, setTable_files]
        · rw [h4, setTable_dirs]
        · rw [h5, setTable_paths]
        · intro p hp
          apply h6
          simp only [hasKey, List.any_append, Bool.or_eq_true]
          exact Or.inl hp
        · intro p hp
          rcases List.mem_cons.mp hp with hpe | hpm
          · subst hpe
            apply h6
            simp [hasKey, List.any_append]
          · exact h7 p hpm

theorem genLoop_id (db : String) (ms : List String) :
    ∀ (acc : GenAcc) (e : DBEntry) (rows : Rows),
      isRegFile acc.fs db = false →
      findDB acc.fs db = some e →
      e.table = some rows →
      (∀ p ∈ ms, hasKey rows p = true) →
      ms.foldl (genStep db) acc = acc := by
  induction ms with
  | nil => intro acc _ _ _ _ _ _; rfl
  | cons m msr ih =>
      intro acc e rows hreg hfind htab hall
      rw [List.foldl_cons]
      have hmf := media_file_exist_of_table acc.fs db m e rows hreg hfind htab
      have hk : hasKey rows m = true := hall m (List.mem_cons_self m msr)
      have hstep : genStep db acc m = acc := by
        unfold genStep
        simp [hmf, hk]
      rw [hstep]
      exact ih acc e rows hreg hfind htab (fun p hp => hall p (List.mem_cons_of_mem m hp))

theorem generate_eq_existing (fs : FS) (dir_path : String)
    (hdir : isDir fs dir_path = true)
    (hf : isFile fs (osPathJoin dir_path DB_FILE) = true) :
    generate fs dir_path =
      ⟨((find_files_with_extension fs dir_path MEDIA_EXTENSIONS).foldl
          (genStep (osPathJoin dir_path DB_FILE))
          ⟨fs, [osPathJoin dir_path DB_FILE ++ " exists. Will look for new files...\n"], []⟩).fs,
       0,
       ((find_files_with_extension fs dir_path MEDIA_EXTENSIONS).foldl
          (genStep (osPathJoin dir_path DB_FILE))
          ⟨fs, [osPathJoin dir_path DB_FILE ++ " exists. Will look for new files...\n"], []⟩).output
         ++ ["Done"],
       ((find_files_with_extension fs dir_path MEDIA_EXTENSIONS).foldl
          (genStep (osPathJoin dir_path DB_FILE))
          ⟨fs, [osPathJoin dir_path DB_FILE ++ " exists. Will look for new files...\n"], []⟩).hashed⟩ := by
  simp [generate, hdir, hf]

theorem generate_eq_fresh (fs : FS) (dir_path : String)
    (hdir : isDir fs dir_path = true)
    (hf : isFile fs (osPathJoin dir_path DB_FILE) = false) :
    generate fs dir_path =
      ⟨((find_files_with_extension (create_new_database fs (osPathJoin dir_path DB_FILE))
            dir_path MEDIA_EXTENSIONS).foldl
          (genStep (osPathJoin dir_path DB_FILE))
          ⟨create_new_database fs (osPathJoin dir_path DB_FILE),
           [osPathJoin dir_path DB_FILE ++ " does not exist. Creating a new database...\n"],
           []⟩).fs,
       0,
       ((find_files_with_extension (create_new_database fs (osPathJoin dir_path DB_FILE))
            dir_path MEDIA_EXTENSIONS).foldl
          (genStep (osPathJoin dir_path DB_FILE))
          ⟨create_new_database fs (osPathJoin dir_path DB_FILE),
           [osPathJoin dir_path DB_FILE ++ " does not exist. Creating a new database...\n"],
           []⟩).output
         ++ ["Done"],
       ((find_files_with_extension (create_new_database fs (osPathJoin dir_path DB_FILE))
            dir_path MEDIA_EXTENSIONS).foldl
          (genStep (osPathJoin dir_path DB_FILE))
          ⟨create_new_database fs (osPathJoin dir_path DB_FILE),
           [osPathJoin dir_path DB_FILE ++ " does not exist. Creating a new database...\n"],
           []⟩).hashed⟩ := by
  simp [generate, hdir, hf]

theorem generate_run_facts (fs : FS) (dir_path : String)
    (hdir : isDir fs dir_path = true)
    (hreg : isRegFile fs (osPathJoin dir_path DB_FILE) = false)
    (htab : ((findDB fs (osPathJoin dir_path DB_FILE)).all fun e => e.table.isSome) = true) :
    ∃ (e2 : DBEntry) (rows2 : Rows),
      findDB (generate fs dir_path).fs (osPathJoin dir_path DB_FILE) = some e2 ∧
      e2.table = some rows2 ∧
      (generate fs dir_path).fs.dirs = fs.dirs ∧
      (generate fs dir_path).fs.files = fs.files ∧
      ∀ p ∈ find_files_with_extension (generate fs dir_path).fs dir_path MEDIA_EXTENSIONS,
        hasKey rows2 p = true := by
  by_cases hf : isFile fs (osPathJoin dir_path DB_FILE) = true
  · obtain ⟨e0, hfind0⟩ : ∃ e0, findDB fs (osPathJoin dir_path DB_FILE) = some e0 := by
      have hany : fs.dbs.any (fun x => x.path == osPathJoin dir_path DB_FILE) = true := by
        simp only [isFile, Bool.or_eq_true] at hf
        rcases hf with h | h
        · rw [hreg] at h
          cases h
        · exact h
      have hs : (fs.dbs.find? (fun x => x.path == osPathJoin dir_path DB_FILE)).isSome :=
        List.find?_isSome.mpr (List.any_eq_true.mp hany)
      exact Option.isSome_iff_exists.mp hs
    obtain ⟨rows0, hrows0⟩ : ∃ rows0, e0.table = some rows0 := by
      rw [hfind0] at htab
      exact Option.isSome_iff_exists.mp htab
    obtain ⟨e2, rows2, h1, h2, h3, h4, h5, _, h7⟩ :=
      genLoop_keys (osPathJoin dir_path DB_FILE)
        (find_files_with_extension fs dir_path MEDIA_EXTENSIONS)
        ⟨fs, [osPathJoin dir_path DB_FILE ++ " exists. Will look for new files...\n"], []⟩
        e0 rows0 hreg hfind0 hrows0
    rw [generate_eq_existing fs dir_path hdir hf]
    refine ⟨e2, rows2, h1, h2, h4, h3, ?_⟩
    have hff : find_files_with_extension
        ((find_files_with_extension fs dir_path MEDIA_EXTENSIONS).foldl
          (genStep (osPathJoin dir_path DB_FILE))
          ⟨fs, [osPathJoin dir_path DB_FILE ++ " exists. Will look for new files...\n"], []⟩).fs
        dir_path MEDIA_EXTENSIONS
          = find_files_with_extension fs dir_path MEDIA_EXTENSIONS :=
      find_files_congr _ fs dir_path MEDIA_EXTENSIONS h3 h5
    rw [hff]
    exact h7
  · have hf' : isFile fs (osPathJoin dir_path DB_FILE) = false := Bool.not_eq_true _ |>.mp hf
    have hany : fs.dbs.any (fun x => x.path == osPathJoin dir_path DB_FILE) = false := by
      cases h : fs.dbs.any (fun x => x.path == osPathJoin dir_path DB_FILE) with
      | false => rfl
      | true =>
          rw [show isFile fs (osPathJoin dir_path DB_FILE)
              = (isRegFile fs (osPathJoin dir_path DB_FILE)
                  || fs.dbs.any (fun e => e.path == osPathJoin dir_path DB_FILE)) from rfl,
            hreg, h] at hf'
          cases hf'
    obtain ⟨hcfind, hcfiles, hcdirs, hcreg⟩ :=
      create_new_database_fresh fs (osPathJoin dir_path DB_FILE) hreg hany
    obtain ⟨e2, rows2, h1, h2, h3, h4, h5, _, h7⟩ :=
      genLoop_keys (osPathJoin dir_path DB_FILE)
        (find_files_with_extension (create_new_database fs (osPathJoin dir_path DB_FILE))
          dir_path MEDIA_EXTENSIONS)
        ⟨create_new_database fs (osPathJoin dir_path DB_FILE),
         [osPathJoin dir_path DB_FILE ++ " does not exist. Creating a new database...\n"], []⟩
        ⟨osPathJoin dir_path DB_FILE, some []⟩ [] hcreg hcfind rfl
    rw [generate_eq_fresh fs dir_path hdir hf']
    refine ⟨e2, rows2, h1, h2, ?_, ?_, ?_⟩
    · rw [h4]
      exact hcdirs
    · rw [h3]
      exact hcfiles
    · have hff : find_files_with_extension
          ((find_files_with_extension (create_new_database fs (osPathJoin dir_path DB_FILE))
              dir_path MEDIA_EXTENSIONS).foldl
            (genStep (osPathJoin dir_path DB_FILE))
            ⟨create_new_database fs (osPathJoin dir_path DB_FILE),
             [osPathJoin dir_path DB_FILE ++ " does not exist. Creating a new database...\n"],
             []⟩).fs
          dir_path MEDIA_EXTENSIONS
            = find_files_with_extension (create_new_database fs (osPathJoin dir_path DB_FILE))
                dir_path MEDIA_EXTENSIONS :=
        find_files_congr _ _ dir_path MEDIA_EXTENSIONS h3 h5
      rw [hff]
      exact h7

/-- C3.  Generate is idempotent over an unchanged directory: a second run
hashes zero new files and leaves the filesystem — in particular the record
store — exactly as the first run left it. -/
theorem generate_idempotent (fs : FS) (dir_path : String)
    (hdir : isDir fs dir_path = true)
    (hreg : isRegFile fs (osPathJoin dir_path DB_FILE) = false)
    (htab : ((findDB fs (osPathJoin dir_path DB_FILE)).all fun e => e.table.isSome) = true) :
    (generate (generate fs dir_path).fs dir_path).hashed = [] ∧
    (generate (generate fs dir_path).fs dir_path).fs = (generate fs dir_path).fs := by
  obtain ⟨e2, rows2, h1, h2, h3, h4, h5⟩ := generate_run_facts fs dir_path hdir hreg htab
  have hdir2 : isDir (generate fs dir_path).fs dir_path = true := by
    rw [isDir_congr _ fs dir_path h3]
    exact hdir
  have hfile2 : isFile (generate fs dir_path).fs (osPathJoin dir_path DB_FILE) = true :=
    isFile_of_findDB _ _ e2 h1
  have hreg2 : isRegFile (generate fs dir_path).fs (osPathJoin dir_path DB_FILE) = false := by
    rw [isRegFile_congr _ fs _ h4]
    exact hreg
  have hid : (find_files_with_extension (generate fs dir_path).fs dir_path
        MEDIA_EXTENSIONS).foldl
      (genStep (osPathJoin dir_path DB_FILE))
      ⟨(generate fs dir_path).fs,
       [osPathJoin dir_path DB_FILE ++ " exists. Will look for new files...\n"], []⟩
        = ⟨(generate fs dir_path).fs,
           [osPathJoin dir_path DB_FILE ++ " exists. Will look for new files...\n"], []⟩ :=
    genLoop_id (osPathJoin dir_path DB_FILE) _ _ e2 rows2 hreg2 h1 h2 h5
  rw [generate_eq_existing (generate fs dir_path).fs dir_path hdir2 hfile2, hid]
  exact ⟨rfl, rfl⟩

theorem generate_idempotent_witness :
    (generate (generate ⟨["d"], [⟨"d", "a.mp4", [97]⟩], []⟩ "d").fs "d").hashed = [] ∧
    (generate (generate ⟨["d"], [⟨"d", "a.mp4", [97]⟩], []⟩ "d").fs "d").fs
      = (generate ⟨["d"], [⟨"d", "a.mp4", [97]⟩], []⟩ "d").fs :=
  generate_idempotent ⟨["d"], [⟨"d", "a.mp4", [97]⟩], []⟩ "d" (by decide) rfl rfl

end HashMyFiles
